import Mathlib

/-!
Shallow embedding of the `http_request` Go package (a fluent HTTP request
builder with an execution pipeline), together with theorems checking its
specification claims.

Modelling conventions:
* Byte sequences are `List Nat` (each element a byte value).
* Go errors are a structured inductive `GoError`; each `fmt.Errorf` site in
  the source gets its own constructor carrying the formatted arguments.
* External collaborators (the `net/url` parser, `encoding/json`, `compress/gzip`,
  `strconv.Quote`, the filesystem, and the HTTP transport/server) are supplied
  by an explicit environment record `Env`.
* `*http.Client` pointers are modelled by indices into an explicit heap
  (`Heap := List HClient`), so that "clone, do not mutate in place" is a
  provable statement.
* Observable side effects (dispatched requests, file writes, stderr output)
  are collected in an `Effects` record returned alongside the result.
-/

/-- Go `error` values produced by this package and its collaborators.
Each `fmt.Errorf` call site in the source is one constructor:
`compressBodyErr` is `"compress body err: %+v"`, `logWriteErr` is
`"log err: %w"`, `responseErr` is `"response err: %v %v %v"` (status code,
status text, body as string). `errRedirect` is the `ErrRedirect` sentinel,
and `urlWrapped` models the `*url.Error` wrapper `http.Client.Do` puts
around a `CheckRedirect` error. -/
inductive GoError where
  | parseErr (msg : String)
  | marshalErr (msg : String)
  | gzipErr (msg : String)
  | reqErr (msg : String)
  | transportErr (msg : String)
  | readFailErr (msg : String)
  | decodeErr (msg : String)
  | ioErr (msg : String)
  | errRedirect
  | urlWrapped (e : GoError)
  | compressBodyErr (e : GoError)
  | logWriteErr (e : GoError)
  | responseErr (code : Nat) (status : String) (body : String)
deriving Repr, DecidableEq

/-- Go `errors.Is`: unwrap through the wrapping constructors
(`*url.Error.Unwrap` and `%w`-wrapping) and compare. -/
def errorsIs (e target : GoError) : Bool :=
  e == target ||
    match e with
    | .urlWrapped inner => errorsIs inner target
    | .compressBodyErr inner => errorsIs inner target
    | .logWriteErr inner => errorsIs inner target
    | _ => false

/-- The dynamic type of the `data interface{}` payload argument:
`[]byte`, `json.RawMessage`, `string`, or any other Go value
(identified opaquely by an index, serialized via the environment's
`json.Marshal`). -/
inductive Payload where
  | bytes (b : List Nat)
  | rawMessage (b : List Nat)
  | str (s : String)
  | other (id : Nat)
deriving Repr, DecidableEq

/-- The dynamic type of the `res interface{}` result-target argument:
Go `nil`, a `*PlainHtml` pointer, or any other (JSON-decodable) target,
identified opaquely by an index. -/
inductive ResTarget where
  | nilTarget
  | plainHtml
  | other (id : Nat)
deriving Repr, DecidableEq

/-- Outcome of `Get`/`PostJSON`: the returned error, or success together
with what was written to the result target (`okNoWrite`: decoding skipped,
`okPlain`: raw body assigned to the `*PlainHtml` target, `okDecoded`:
`unmarshalSafeNumber` succeeded on the target). -/
inductive DecodeOutcome where
  | err (e : GoError)
  | okNoWrite
  | okPlain (html : String)
  | okDecoded
deriving Repr, DecidableEq

/-- `net/textproto.validHeaderFieldByte`: the RFC 7230 token byte table
(digits, letters, and the specials with byte values
33 35 36 37 38 39 42 43 45 46 94 95 96 124 126). -/
def validHeaderFieldByte (n : Nat) : Bool :=
  decide ((48 ≤ n ∧ n ≤ 57) ∨ (65 ≤ n ∧ n ≤ 90) ∨ (97 ≤ n ∧ n ≤ 122) ∨
    n = 33 ∨ n = 35 ∨ n = 36 ∨ n = 37 ∨ n = 38 ∨ n = 39 ∨ n = 42 ∨ n = 43 ∨
    n = 45 ∨ n = 46 ∨ n = 94 ∨ n = 95 ∨ n = 96 ∨ n = 124 ∨ n = 126)

/-- The case-mapping pass of `net/textproto.CanonicalMIMEHeaderKey`:
uppercase the first byte and every byte following a hyphen (byte 45),
lowercase all other letters. -/
def canonicalizeChars : Bool → List Char → List Char
  | _, [] => []
  | upper, ch :: rest =>
    let n := ch.toNat
    let c2 : Char :=
      if upper ∧ 97 ≤ n ∧ n ≤ 122 then Char.ofNat (n - 32)
      else if (¬ upper) ∧ 65 ≤ n ∧ n ≤ 90 then Char.ofNat (n + 32)
      else ch
    c2 :: canonicalizeChars (c2 == Char.ofNat 45) rest

/-- `net/textproto.CanonicalMIMEHeaderKey`: if the key contains any byte
that is not a valid header-field token byte, it is returned unmodified;
otherwise it is case-canonicalized. -/
def canonicalMIMEHeaderKey (s : String) : String :=
  if s.data.all (fun ch => validHeaderFieldByte ch.toNat) then
    String.mk (canonicalizeChars true s.data)
  else s

/-- `net/http.Header`: a map from canonical header key to the ordered list
of values, modelled as an association list. -/
abbrev HeaderMap := List (String × List String)

def emptyHeader : HeaderMap := []

/-- Replace the whole value list stored under `key` (already canonical),
inserting the entry if absent. -/
def headerSetList (h : HeaderMap) (key : String) (value : List String) : HeaderMap :=
  match h with
  | [] => [(key, value)]
  | kv :: rest =>
    if kv.1 = key then (key, value) :: rest else kv :: headerSetList rest key value

/-- Map lookup on the association list. -/
def headerLookup (h : HeaderMap) (key : String) : Option (List String) :=
  match h with
  | [] => none
  | kv :: rest => if kv.1 = key then some kv.2 else headerLookup rest key

/-- `http.Header.Set`: canonicalize the key and replace its values with the
single given value. -/
def headerSet (h : HeaderMap) (key value : String) : HeaderMap :=
  headerSetList h (canonicalMIMEHeaderKey key) [value]

/-- `http.Header.Add`: canonicalize the key and append the value to its list. -/
def headerAdd (h : HeaderMap) (key value : String) : HeaderMap :=
  let ck := canonicalMIMEHeaderKey key
  match headerLookup h ck with
  | none => h ++ [(ck, [value])]
  | some vs => headerSetList h ck (vs ++ [value])

/-- The `http.RoundTripper` installed on a client: either the default
transport (a `nil` `Transport` field) or the proxy transport
`&http.Transport{Proxy: http.ProxyURL(u)}` built by `WithProxy`. -/
inductive Transport where
  | default
  | proxy (u : String)
deriving Repr, DecidableEq

/-- The `http.Client.CheckRedirect` hook: `nil` (Go's default policy, which
follows redirects) or the constant function installed by `request` that
always returns a fixed error. -/
inductive CheckRedirect where
  | default
  | always (e : GoError)
deriving Repr, DecidableEq

/-- `http.Client`. `rest` stands for the remaining fields (`Jar`, `Timeout`),
which a shallow copy `clone := *client` preserves. -/
structure HClient where
  transport : Transport
  checkRedirect : CheckRedirect
  rest : Nat
deriving Repr, DecidableEq

/-- `http.DefaultClient`: the zero `http.Client`. -/
def httpDefaultClient : HClient := { transport := .default, checkRedirect := .default, rest := 0 }

/-- A heap of `http.Client` objects; a `*http.Client` is an index into it. -/
abbrev Heap := List HClient

/-- The `*http.Request` assembled by `request`, as far as this package
observes it: context, method, URL, body bytes, and header map. -/
structure HttpRequest where
  ctx : Nat
  method : String
  url : String
  body : Option (List Nat)
  header : HeaderMap
deriving Repr, DecidableEq

/-- The `*http.Response` as far as this package observes it. `readErr`
models a failure while reading the body stream. -/
structure HttpResponse where
  statusCode : Nat
  status : String
  body : List Nat
  readErr : Option GoError
deriving Repr, DecidableEq

/-- What the network does with a dispatched request: fail at transport
level, answer directly, or answer with a redirect that (if followed)
leads to `finalResp`. -/
inductive ServerResp where
  | transportFail (e : GoError)
  | direct (resp : HttpResponse)
  | redirect (finalResp : HttpResponse)
deriving Repr, DecidableEq

/-- `http.Client.Do`: a direct response is returned as-is; on a redirect,
the default policy follows it, while an installed `CheckRedirect` hook that
returns an error makes `Do` fail with that error wrapped in a `*url.Error`. -/
def clientDo (cl : HClient) (sr : ServerResp) : Except GoError HttpResponse :=
  match sr with
  | .transportFail e => .error e
  | .direct resp => .ok resp
  | .redirect finalResp =>
    match cl.checkRedirect with
    | .default => .ok finalResp
    | .always e => .error (.urlWrapped e)

/-- The external collaborators of the package: `url.Parse`, `json.Marshal`,
the gzip compressor, `http.NewRequestWithContext` failure behaviour,
`strconv.Quote`, `ioutil.WriteFile` failure behaviour, the network, and the
`UseNumber` JSON decoder used by `unmarshalSafeNumber`. -/
structure Env where
  urlParse : String → Except GoError String
  jsonMarshal : Nat → Except GoError (List Nat)
  gzip : List Nat → Except GoError (List Nat)
  newRequestErr : String → String → Option GoError
  strconvQuote : String → String
  writeFile : String → String → Option GoError
  serve : HttpRequest → ServerResp
  jsonDecode : List Nat → ResTarget → Option GoError

/-- The observable side effects of one execution: requests handed to
`client.Do`, successful log-file writes, and lines printed to stderr. -/
structure Effects where
  netRequests : List HttpRequest
  fileWrites : List (String × String)
  stderrLines : List String
deriving Repr, DecidableEq

def noEffects : Effects := ⟨[], [], []⟩

/-- Go `[]byte(s)`: the UTF-8 bytes of a string. -/
def strToBytes (s : String) : List Nat :=
  s.toUTF8.toList.map (fun b => b.toNat)

/-- Go `string(b)` for a byte slice: each byte becomes one character. -/
def strOfBytes (b : List Nat) : String :=
  String.mk (b.map Char.ofNat)

/-- The single-quote character. -/
def sqChar : Char := Char.ofNat 39

/-- `quoteSh`: wrap in single quotes when the value contains no single
quote, otherwise fall back to `strconv.Quote` (an external collaborator,
taken from the environment). -/
def quoteSh (env : Env) (s : String) : String :=
  if ¬ (s.contains sqChar) then sqChar.toString ++ s ++ sqChar.toString
  else env.strconvQuote s

/-- The `RequestBuilder` struct. `client` is a `*http.Client`: an optional
index into the client heap. -/
structure RequestBuilder where
  buildErr : Option GoError
  header : HeaderMap
  log : Bool
  logFile : String
  enableCompress : Bool
  disableRedirect : Bool
  client : Option Nat
deriving Repr, DecidableEq

/-- `New()`. -/
def New : RequestBuilder :=
  { buildErr := none, header := emptyHeader, log := false, logFile := "",
    enableCompress := false, disableRedirect := false, client := none }

/-- `(*RequestBuilder).Header`: `c.header.Set(name, value)`. -/
def RequestBuilder.Header (c : RequestBuilder) (name value : String) : RequestBuilder :=
  { c with header := headerSet c.header name value }

/-- `(*RequestBuilder).WithProxy`: empty URL is a no-op; a set `buildErr`
short-circuits; a parse failure records `buildErr`; otherwise a proxy
transport is attached to a freshly allocated client — either a new zero
client or a shallow copy of the currently configured one. -/
def RequestBuilder.WithProxy (c : RequestBuilder) (env : Env) (heap : Heap)
    (proxyURL : String) : RequestBuilder × Heap :=
  if proxyURL = "" then (c, heap)
  else if c.buildErr ≠ none then (c, heap)
  else
    match env.urlParse proxyURL with
    | .error e => ({ c with buildErr := some e }, heap)
    | .ok proxyUrl =>
      match c.client with
      | none =>
        ({ c with client := some heap.length },
          heap ++ [{ transport := .proxy proxyUrl, checkRedirect := .default, rest := 0 }])
      | some a =>
        let clone := { heap.getD a httpDefaultClient with transport := Transport.proxy proxyUrl }
        ({ c with client := some heap.length }, heap ++ [clone])

/-- `(*RequestBuilder).WithClient`. -/
def RequestBuilder.WithClient (c : RequestBuilder) (client : Nat) : RequestBuilder :=
  { c with client := some client }

/-- `(*RequestBuilder).Compressed`. -/
def RequestBuilder.Compressed (c : RequestBuilder) : RequestBuilder :=
  { c with enableCompress := true }

/-- `(*RequestBuilder).DisableRedirect`. -/
def RequestBuilder.DisableRedirect (c : RequestBuilder) : RequestBuilder :=
  { c with disableRedirect := true }

/-- `(*RequestBuilder).Log`: variadic; no argument means `true`, otherwise
the first argument is taken. -/
def RequestBuilder.Log (c : RequestBuilder) (v : List Bool) : RequestBuilder :=
  match v with
  | [] => { c with log := true }
  | b :: _ => { c with log := b }

/-- `(*RequestBuilder).LogFile`. -/
def RequestBuilder.LogFile (c : RequestBuilder) (logFile : String) : RequestBuilder :=
  { c with logFile := logFile }

/-- `unmarshalSafeNumber`: a `UseNumber` JSON decode of the body into the
target, performed by the external JSON library. -/
def unmarshalSafeNumber (env : Env) (body : List Nat) (res : ResTarget) : Option GoError :=
  env.jsonDecode body res

/-- The result of the payload-serialization step of `request`: the wire
body (before compression), plus `logDataBytes`/`logDataString` kept for the
diagnostic log. -/
structure SerializedBody where
  body : Option (List Nat)
  logDataBytes : List Nat
  logDataString : String
deriving Repr, DecidableEq

/-- The `if post { if data != nil { switch data := data.(type) ... } }`
block of `request`: byte slices, raw JSON messages, and strings are used
verbatim; anything else goes through `json.Marshal`, whose failure is
returned as-is. -/
def serializeBody (env : Env) (post : Bool) (data : Option Payload) :
    Except GoError SerializedBody :=
  if post then
    match data with
    | none => .ok ⟨none, [], ""⟩
    | some (.bytes b) => .ok ⟨some b, b, ""⟩
    | some (.rawMessage b) => .ok ⟨some b, b, ""⟩
    | some (.str s) => .ok ⟨some (strToBytes s), [], s⟩
    | some (.other i) =>
      match env.jsonMarshal i with
      | .error e => .error e
      | .ok dataBytes => .ok ⟨some dataBytes, dataBytes, ""⟩
  else .ok ⟨none, [], ""⟩

/-- The wire body after the optional compression step, plus the `gzipped`
flag that later drives the `Content-Encoding` header. -/
structure CompressedBody where
  body : Option (List Nat)
  gzipped : Bool
deriving Repr, DecidableEq

/-- The `if bodyReader != nil && c.enableCompress` block of `request`:
gzip the whole body; a gzip failure becomes `"compress body err: %+v"`. -/
def compressStep (env : Env) (enableCompress : Bool) (body : Option (List Nat)) :
    Except GoError CompressedBody :=
  match body with
  | none => .ok ⟨none, false⟩
  | some b =>
    if enableCompress then
      match env.gzip b with
      | .error gzErr => .error (.compressBodyErr gzErr)
      | .ok g => .ok ⟨some g, true⟩
    else .ok ⟨some b, false⟩

/-- The `for header, values := range c.header { ... Add ... }` loop:
every configured header value is added to the request's header map. -/
def addAll (reqH : HeaderMap) (entries : HeaderMap) : HeaderMap :=
  entries.foldl (fun acc kv => kv.2.foldl (fun a v => headerAdd a kv.1 v) acc) reqH

/-- The `-H "Name: value"` arguments of the logged curl command, one pair
per header value, rendered with `fmt.Sprintf("\x22%s: %s\x22", k, e)`. -/
def headerArgs (h : HeaderMap) : List String :=
  h.flatMap (fun kv => kv.2.flatMap (fun e => ["-H", "\"" ++ kv.1 ++ ": " ++ e ++ "\""]))

/-- The `--data-binary` arguments of the logged curl command: the
pre-compression bytes (as a Go string) when present, else the
pre-compression string payload when non-empty, else nothing. -/
def dataArgs (env : Env) (logDataBytes : List Nat) (logDataString : String) : List String :=
  if logDataBytes.length > 0 then ["--data-binary", quoteSh env (strOfBytes logDataBytes)]
  else if logDataString.length > 0 then ["--data-binary", quoteSh env logDataString]
  else []

/-- The full logged command string. -/
def cmdLogOf (env : Env) (method : String) (hdr : HeaderMap)
    (logDataBytes : List Nat) (logDataString : String) (url : String) : String :=
  String.intercalate " "
    (["curl", "-v", "-X", method] ++ headerArgs hdr ++
      dataArgs env logDataBytes logDataString ++ [quoteSh env url])

/-- The `if needLog { ... }` block: write the command string to the log
file when one is configured (a write failure is returned as
`"log err: %w"` and aborts the call), and emit it to stderr when console
logging is on. Returns the logging side effects. -/
def logStep (env : Env) (c : RequestBuilder) (needLog : Bool) (cmdLog : String) :
    Except GoError Effects :=
  if needLog then
    match (if c.logFile ≠ "" then env.writeFile c.logFile cmdLog else none) with
    | some e => .error (.logWriteErr e)
    | none =>
      .ok { netRequests := [],
            fileWrites := if c.logFile ≠ "" then [(c.logFile, cmdLog)] else [],
            stderrLines := if c.log then ["HTTP DEBUG: " ++ cmdLog ++ "\n"] else [] }
  else .ok noEffects

/-- Client resolution: the configured client if present, else
`http.DefaultClient`. -/
def resolveClient (c : RequestBuilder) (heap : Heap) : HClient :=
  match c.client with
  | none => httpDefaultClient
  | some a => heap.getD a httpDefaultClient

/-- The `if c.disableRedirect { cloneClient := *client ... }` block: a
shallow copy of the resolved client whose `CheckRedirect` hook always
returns `ErrRedirect`. -/
def effectiveClient (c : RequestBuilder) (heap : Heap) : HClient :=
  if c.disableRedirect then
    { resolveClient c heap with checkRedirect := .always .errRedirect }
  else resolveClient c heap

/-- Response-body handling: when the data is needed the whole body is read
(a read failure is terminal); otherwise the stream is drained and discarded
(the `io.Copy` result is ignored), leaving `body` nil. -/
def readBody (resp : HttpResponse) (needData : Bool) : Except GoError (List Nat) :=
  if needData then
    match resp.readErr with
    | some e => .error e
    | none => .ok resp.body
  else .ok []

/-- `(*RequestBuilder).request`: the execution pipeline, in source order —
build-error short-circuit, payload serialization, optional compression,
request construction, header application (forcing a JSON content type on
POST), diagnostic logging, the late `Content-Encoding` header, client
resolution with the redirect-suppressing clone, dispatch, body read, and
status classification (`>= 300` fails with
`"response err: <code> <status> <body>"`). -/
def request (env : Env) (c : RequestBuilder) (heap : Heap) (ctx : Nat) (url : String)
    (post : Bool) (data : Option Payload) (needData : Bool) :
    Except GoError (List Nat) × Effects :=
  match c.buildErr with
  | some e => (.error e, noEffects)
  | none =>
    let needLog : Bool := c.log || c.logFile ≠ ""
    let method : String := if post then "POST" else "GET"
    let jsonContent : Bool := post
    match serializeBody env post data with
    | .error e => (.error e, noEffects)
    | .ok sb =>
      match compressStep env c.enableCompress sb.body with
      | .error e => (.error e, noEffects)
      | .ok cs =>
        match env.newRequestErr method url with
        | some e => (.error e, noEffects)
        | none =>
          let hdr1 := addAll emptyHeader c.header
          let hdr2 :=
            if jsonContent then headerSet hdr1 "Content-Type" "application/json" else hdr1
          let cmdLog := cmdLogOf env method hdr2 sb.logDataBytes sb.logDataString url
          match logStep env c needLog cmdLog with
          | .error e => (.error e, noEffects)
          | .ok logEff =>
            let hdr3 := if cs.gzipped then headerSet hdr2 "Content-Encoding" "gzip" else hdr2
            let req : HttpRequest :=
              { ctx := ctx, method := method, url := url, body := cs.body, header := hdr3 }
            let eff : Effects := { logEff with netRequests := [req] }
            match clientDo (effectiveClient c heap) (env.serve req) with
            | .error e => (.error e, eff)
            | .ok httpResp =>
              match readBody httpResp needData with
              | .error e => (.error e, eff)
              | .ok body =>
                if httpResp.statusCode ≥ 300 then
                  (.error (.responseErr httpResp.statusCode httpResp.status (strOfBytes body)),
                    eff)
                else (.ok body, eff)

/-- `(*RequestBuilder).PostJSON` as defined next to `ErrRedirect` and
`PlainHtml` (the version with the `*PlainHtml` verbatim-body case). -/
def RequestBuilder.PostJSON (c : RequestBuilder) (env : Env) (heap : Heap) (ctx : Nat)
    (url : String) (data : Option Payload) (res : ResTarget) : DecodeOutcome × Effects :=
  let r := request env c heap ctx url true data (res != .nilTarget)
  match r.1 with
  | .error e => (.err e, r.2)
  | .ok body =>
    if res == .nilTarget || body.length == 0 then (.okNoWrite, r.2)
    else
      match res with
      | .plainHtml => (.okPlain (strOfBytes body), r.2)
      | rGen =>
        match unmarshalSafeNumber env body rGen with
        | some e => (.err e, r.2)
        | none => (.okDecoded, r.2)

/-- `(*RequestBuilder).Get`, the `PlainHtml`-aware version. -/
def RequestBuilder.Get (c : RequestBuilder) (env : Env) (heap : Heap) (ctx : Nat)
    (url : String) (res : ResTarget) : DecodeOutcome × Effects :=
  let r := request env c heap ctx url false none (res != .nilTarget)
  match r.1 with
  | .error e => (.err e, r.2)
  | .ok body =>
    if res == .nilTarget || body.length == 0 then (.okNoWrite, r.2)
    else
      match res with
      | .plainHtml => (.okPlain (strOfBytes body), r.2)
      | rGen =>
        match unmarshalSafeNumber env body rGen with
        | some e => (.err e, r.2)
        | none => (.okDecoded, r.2)

/-- The `PostJSON` of `src/request.go`: identical except that it has no
`*PlainHtml` special case and always decodes through
`unmarshalSafeNumber`. -/
def RequestGo.PostJSON (c : RequestBuilder) (env : Env) (heap : Heap) (ctx : Nat)
    (url : String) (data : Option Payload) (res : ResTarget) : DecodeOutcome × Effects :=
  let r := request env c heap ctx url true data (res != .nilTarget)
  match r.1 with
  | .error e => (.err e, r.2)
  | .ok body =>
    if res == .nilTarget || body.length == 0 then (.okNoWrite, r.2)
    else
      match unmarshalSafeNumber env body res with
      | some e => (.err e, r.2)
      | none => (.okDecoded, r.2)

/-- The `Get` of `src/request.go`: no `*PlainHtml` special case. -/
def RequestGo.Get (c : RequestBuilder) (env : Env) (heap : Heap) (ctx : Nat)
    (url : String) (res : ResTarget) : DecodeOutcome × Effects :=
  let r := request env c heap ctx url false none (res != .nilTarget)
  match r.1 with
  | .error e => (.err e, r.2)
  | .ok body =>
    if res == .nilTarget || body.length == 0 then (.okNoWrite, r.2)
    else
      match unmarshalSafeNumber env body res with
      | some e => (.err e, r.2)
      | none => (.okDecoded, r.2)

/-- A baseline test environment: parsing and marshalling succeed trivially,
gzip is the identity, request construction and file writes succeed, the
server answers 200 with an empty body, and JSON decoding always fails (so
that a successful outcome proves decoding was never consulted). -/
def envA : Env :=
  { urlParse := fun s => .ok s,
    jsonMarshal := fun _ => .ok [],
    gzip := fun b => .ok b,
    newRequestErr := fun _ _ => none,
    strconvQuote := fun s => s,
    writeFile := fun _ _ => none,
    serve := fun _ => .direct ⟨200, "200 OK", [], none⟩,
    jsonDecode := fun _ _ => some (.decodeErr "decode should not be reached") }

/-- `envA` with the server answering a fixed direct response. -/
def mkServeEnv (status : Nat) (statusText : String) (body : List Nat) : Env :=
  { envA with serve := fun _ => .direct ⟨status, statusText, body, none⟩ }

/-- `envA` with a `url.Parse` that always fails. -/
def envParseFail : Env :=
  { envA with urlParse := fun _ => .error (.parseErr "bad") }

lemma headerSetList_headerSetList (h : HeaderMap) (k : String) (v1 v2 : List String) :
    headerSetList (headerSetList h k v1) k v2 = headerSetList h k v2 := by
  induction h with
  | nil => simp [headerSetList]
  | cons kv rest ih =>
    by_cases hk : kv.1 = k
    · simp [headerSetList, hk]
    · simp [headerSetList, hk, ih]

lemma headerLookup_headerSetList_self (h : HeaderMap) (k : String) (v : List String) :
    headerLookup (headerSetList h k v) k = some v := by
  induction h with
  | nil => simp [headerSetList, headerLookup]
  | cons kv rest ih =>
    by_cases hk : kv.1 = k
    · simp [headerSetList, hk, headerLookup]
    · simp [headerSetList, hk, headerLookup, ih]

lemma request_mkServeEnv (s : Nat) (st : String) (bod : List Nat) (u : String)
    (post nd : Bool) :
    (request (mkServeEnv s st bod) New [] 0 u post none nd).1 =
      if s ≥ 300 then .error (.responseErr s st (strOfBytes (if nd then bod else [])))
      else .ok (if nd then bod else []) := by
  by_cases hs : s ≥ 300 <;> cases nd <;> cases post <;>
    simp [request, mkServeEnv, envA, New, serializeBody, compressStep, logStep, noEffects,
      clientDo, readBody, effectiveClient, resolveClient, httpDefaultClient, hs]

/-- C2: for every response, a status code `>= 300` makes the execution fail
with the `"response err"` error carrying the numeric code, the status text,
and the captured body — which is the full body when `needData` is true and
empty when body capture was skipped (`needData` false) — while every status
code below 300 succeeds; the same classification is visible through `Get`
and `PostJSON`. -/
theorem C2_status_classification (s : Nat) (st : String) (bod : List Nat) (u : String)
    (nd : Bool) :
    ((request (mkServeEnv s st bod) New [] 0 u false none nd).1 =
      if s ≥ 300 then .error (.responseErr s st (strOfBytes (if nd then bod else [])))
      else .ok (if nd then bod else [])) ∧
    ((New.Get (mkServeEnv s st bod) [] 0 u .nilTarget).1 =
      if s ≥ 300 then .err (.responseErr s st "") else .okNoWrite) ∧
    ((New.PostJSON (mkServeEnv s st bod) [] 0 u none .nilTarget).1 =
      if s ≥ 300 then .err (.responseErr s st "") else .okNoWrite) := by
  refine ⟨request_mkServeEnv s st bod u false nd, ?_, ?_⟩
  · have h := request_mkServeEnv s st bod u false false
    by_cases hs : s ≥ 300 <;>
      simp_all [RequestBuilder.Get, strOfBytes] <;> rw [if_neg (by omega)]
  · have h := request_mkServeEnv s st bod u true false
    by_cases hs : s ≥ 300 <;>
      simp_all [RequestBuilder.PostJSON, strOfBytes] <;> rw [if_neg (by omega)]

lemma plainHtml_bne_nil : (ResTarget.plainHtml != ResTarget.nilTarget) = true := rfl

lemma other_bne_nil (i : Nat) : (ResTarget.other i != ResTarget.nilTarget) = true := rfl

lemma nil_bne_nil : (ResTarget.nilTarget != ResTarget.nilTarget) = false := rfl

/-- C8: with a nil result target, or with an empty response body, `Get` and
`PostJSON` skip decoding entirely and succeed (the environment's JSON
decoder always fails, so a success proves it was never consulted); a
`*PlainHtml` target receives the raw body bytes verbatim, with no JSON
parsing attempted. -/
theorem C8_decode_skip_and_plainhtml (bod : List Nat) (st u : String) (i : Nat) :
    ((New.Get (mkServeEnv 200 st bod) [] 0 u .nilTarget).1 = .okNoWrite) ∧
    ((New.PostJSON (mkServeEnv 200 st bod) [] 0 u none .nilTarget).1 = .okNoWrite) ∧
    ((New.Get (mkServeEnv 200 st []) [] 0 u (.other i)).1 = .okNoWrite) ∧
    ((New.PostJSON (mkServeEnv 200 st []) [] 0 u none (.other i)).1 = .okNoWrite) ∧
    ((New.Get (mkServeEnv 200 st bod) [] 0 u .plainHtml).1 =
      if bod = [] then .okNoWrite else .okPlain (strOfBytes bod)) ∧
    ((New.PostJSON (mkServeEnv 200 st bod) [] 0 u none .plainHtml).1 =
      if bod = [] then .okNoWrite else .okPlain (strOfBytes bod)) := by
  have hgf := request_mkServeEnv 200 st bod u false false
  have hpf := request_mkServeEnv 200 st bod u true false
  have hgt := request_mkServeEnv 200 st bod u false true
  have hpt := request_mkServeEnv 200 st bod u true true
  have hge := request_mkServeEnv 200 st [] u false true
  have hpe := request_mkServeEnv 200 st [] u true true
  norm_num at hgf hpf hgt hpt hge hpe
  refine ⟨?_, ?_, ?_, ?_, ?_, ?_⟩
  · simp [RequestBuilder.Get, nil_bne_nil, hgf]
  · simp [RequestBuilder.PostJSON, nil_bne_nil, hpf]
  · simp [RequestBuilder.Get, other_bne_nil, hge]
  · simp [RequestBuilder.PostJSON, other_bne_nil, hpe]
  · cases bod <;> simp_all [RequestBuilder.Get, plainHtml_bne_nil]
  · cases bod <;> simp_all [RequestBuilder.PostJSON, plainHtml_bne_nil]

/-- C9 counterexample: the names `"a b"` and `"A B"` are equal
case-insensitively, yet after setting a value under each, the builder
holds BOTH values (they contain a byte that is not a valid header token
byte, so `CanonicalMIMEHeaderKey` leaves them unmodified and they land
under two distinct keys), refuting unrestricted case-insensitive
replacement. -/
theorem C9_counterexample :
    "a b".data.map Char.toLower = "A B".data.map Char.toLower ∧
    ((New.Header "a b" "1").Header "A B" "2").header =
      [("a b", ["1"]), ("A B", ["2"])] := by
  constructor
  · decide
  · rfl

/-- C9 amended: calling `Header` twice with names that canonicalize to the
same MIME header key — in particular the very same name, or names made of
valid header token bytes differing only in ASCII case — leaves exactly the
latest value under that key, and the double set equals the single set. -/
theorem C9_amended_header_replace (c : RequestBuilder) (n1 n2 v1 v2 : String)
    (h : canonicalMIMEHeaderKey n1 = canonicalMIMEHeaderKey n2) :
    headerLookup ((c.Header n1 v1).Header n2 v2).header (canonicalMIMEHeaderKey n2) =
      some [v2] ∧
    (c.Header n2 v1).Header n2 v2 = c.Header n2 v2 := by
  constructor
  · simp only [RequestBuilder.Header, headerSet, h, headerSetList_headerSetList]
    exact headerLookup_headerSetList_self c.header (canonicalMIMEHeaderKey n2) [v2]
  · simp only [RequestBuilder.Header, headerSet, headerSetList_headerSetList]

/-- C9 witness: a double set with `"content-type"` and `"Content-Type"`
(canonically equal names) keeps only the latest value. -/
theorem C9_amended_header_replace_witness :
    headerLookup ((New.Header "content-type" "a").Header "Content-Type" "b").header
      (canonicalMIMEHeaderKey "Content-Type") = some ["b"] :=
  (C9_amended_header_replace New "content-type" "Content-Type" "a" "b" (by decide)).1

/-- C1 counterexample: after an invalid proxy URL poisons the builder
(`buildErr` set), a subsequent `Header` call is NOT a no-op — it still
mutates the header map, because only `WithProxy` checks `buildErr`. -/
theorem C1_counterexample :
    ((New.WithProxy envParseFail [] "::x").1.buildErr = some (.parseErr "bad")) ∧
    ((New.WithProxy envParseFail [] "::x").1.Header "A" "B").header ≠
      (New.WithProxy envParseFail [] "::x").1.header := by
  constructor
  · rfl
  · decide

/-- C1 amended: once `buildErr` is set it is sticky — `WithProxy` becomes a
no-op, every execution (`request`, `Get`, `PostJSON`) returns the stored
error immediately with no side effects (in particular no network request),
and no other configuration call ever clears `buildErr` (though those calls
still mutate their own fields). -/
theorem C1_amended_buildErr_sticky (env : Env) (c : RequestBuilder) (heap : Heap)
    (p : String) (ctx : Nat) (u : String) (post : Bool) (data : Option Payload)
    (nd : Bool) (res : ResTarget) (n v f : String) (bs : List Bool) (a : Nat)
    (e : GoError) (h : c.buildErr = some e) :
    c.WithProxy env heap p = (c, heap) ∧
    request env c heap ctx u post data nd = (.error e, noEffects) ∧
    c.Get env heap ctx u res = (.err e, noEffects) ∧
    c.PostJSON env heap ctx u data res = (.err e, noEffects) ∧
    (c.Header n v).buildErr = some e ∧
    (c.WithClient a).buildErr = some e ∧
    (c.Compressed).buildErr = some e ∧
    (c.DisableRedirect).buildErr = some e ∧
    (c.Log bs).buildErr = some e ∧
    (c.LogFile f).buildErr = some e := by
  have hreq : ∀ post2 data2 nd2, request env c heap ctx u post2 data2 nd2 =
      (.error e, noEffects) := by
    intro post2 data2 nd2
    simp [request, h]
  refine ⟨?_, hreq post data nd, ?_, ?_, h, h, h, h, ?_, h⟩
  · by_cases hp : p = "" <;> simp [RequestBuilder.WithProxy, hp, h]
  · simp [RequestBuilder.Get, hreq]
  · simp [RequestBuilder.PostJSON, hreq]
  · cases bs <;> exact h

/-- C1 witness: a builder poisoned by a failing proxy parse short-circuits
`Get` with the stored parse error and performs no side effects, and
`Compressed` keeps the stored error. -/
theorem C1_amended_buildErr_sticky_witness :
    ((New.WithProxy envParseFail [] "::x").1.Get envA [] 0 "u" .nilTarget =
      (.err (.parseErr "bad"), noEffects)) ∧
    (((New.WithProxy envParseFail [] "::x").1.Compressed).buildErr =
      some (.parseErr "bad")) := by
  have h := C1_amended_buildErr_sticky envA (New.WithProxy envParseFail [] "::x").1 []
    "" 0 "u" false none false .nilTarget "" "" "" [] 0 (.parseErr "bad") (by decide)
  exact ⟨h.2.2.1, h.2.2.2.2.2.2.1⟩

lemma request_dispatched_body (env : Env) (c : RequestBuilder) (heap : Heap) (ctx : Nat)
    (u : String) (post : Bool) (data : Option Payload) (nd : Bool) (sb : SerializedBody)
    (cs : CompressedBody) (hb : c.buildErr = none)
    (hsb : serializeBody env post data = .ok sb)
    (hcs : compressStep env c.enableCompress sb.body = .ok cs) :
    ∀ r ∈ (request env c heap ctx u post data nd).2.netRequests, r.body = cs.body := by
  simp only [request, hb, hsb, hcs]
  repeat' split <;> (try simp_all [noEffects])

/-- `envA` with a `json.Marshal` that always fails. -/
def envMarshalFail : Env :=
  { envA with jsonMarshal := fun _ => .error (.marshalErr "m") }

/-- C3: on POST, a `[]byte` or `json.RawMessage` payload is dispatched
verbatim as the wire body, a `string` payload is dispatched as its bytes,
any other payload failing `json.Marshal` aborts the call with that error
before any request is constructed or dispatched (no side effects at all),
and a GET request never carries a body. (Compression disabled, as the claim
is about the untransformed encodings.) -/
theorem C3_post_body_encoding (env : Env) (c : RequestBuilder) (heap : Heap) (ctx : Nat)
    (u : String) (nd : Bool) (b : List Nat) (s : String) (i : Nat) (e : GoError)
    (hb : c.buildErr = none) (hc : c.enableCompress = false) :
    (∀ r ∈ (request env c heap ctx u true (some (.bytes b)) nd).2.netRequests,
      r.body = some b) ∧
    (∀ r ∈ (request env c heap ctx u true (some (.rawMessage b)) nd).2.netRequests,
      r.body = some b) ∧
    (∀ r ∈ (request env c heap ctx u true (some (.str s)) nd).2.netRequests,
      r.body = some (strToBytes s)) ∧
    (env.jsonMarshal i = .error e →
      request env c heap ctx u true (some (.other i)) nd = (.error e, noEffects)) ∧
    (∀ data r, r ∈ (request env c heap ctx u false data nd).2.netRequests →
      r.body = none) := by
  refine ⟨?_, ?_, ?_, ?_, ?_⟩
  · exact request_dispatched_body env c heap ctx u true (some (.bytes b)) nd
      ⟨some b, b, ""⟩ ⟨some b, false⟩ hb rfl (by rw [hc]; rfl)
  · exact request_dispatched_body env c heap ctx u true (some (.rawMessage b)) nd
      ⟨some b, b, ""⟩ ⟨some b, false⟩ hb rfl (by rw [hc]; rfl)
  · exact request_dispatched_body env c heap ctx u true (some (.str s)) nd
      ⟨some (strToBytes s), [], s⟩ ⟨some (strToBytes s), false⟩ hb rfl (by rw [hc]; rfl)
  · intro hm
    simp [request, hb, serializeBody, hm]
  · intro data r hr
    exact request_dispatched_body env c heap ctx u false data nd
      ⟨none, [], ""⟩ ⟨none, false⟩ hb rfl rfl r hr

/-- C3 witness: with a failing `json.Marshal`, a POST with a non-special
payload returns the marshal error with no side effects. -/
theorem C3_post_body_encoding_witness :
    request envMarshalFail New [] 0 "u" true (some (.other 0)) true =
      (.error (.marshalErr "m"), noEffects) :=
  (C3_post_body_encoding envMarshalFail New [] 0 "u" true [] "" 0 (.marshalErr "m")
    rfl rfl).2.2.2.1 rfl

/-- `envA` with the gzip compressor given by a pure function. -/
def envGz (gz : List Nat → List Nat) : Env :=
  { envA with gzip := fun x => .ok (gz x) }

/-- C4: with compression enabled on a POST with a non-empty body, the
dispatched wire body is exactly the gzip compression of the serialized
payload and the `Content-Encoding: gzip` header is present on the
dispatched request; the diagnostic stderr log line renders the ORIGINAL
pre-compression payload (the compressed bytes appear nowhere in it); and
without compression no `Content-Encoding` header is set while the body
goes out verbatim. -/
theorem C4_compression (gz : List Nat → List Nat) (b : List Nat) (u : String)
    (hb : b ≠ []) :
    ((request (envGz gz) (New.Compressed.Log []) [] 0 u true (some (.bytes b))
        false).2.netRequests =
      [{ ctx := 0, method := "POST", url := u, body := some (gz b),
         header := [("Content-Type", ["application/json"]),
                    ("Content-Encoding", ["gzip"])] }]) ∧
    ((request (envGz gz) (New.Compressed.Log []) [] 0 u true (some (.bytes b))
        false).2.stderrLines =
      ["HTTP DEBUG: " ++ String.intercalate " " ["curl", "-v", "-X", "POST", "-H",
        "\"Content-Type: application/json\"", "--data-binary",
        quoteSh (envGz gz) (strOfBytes b), quoteSh (envGz gz) u] ++ "\n"]) ∧
    (∀ r ∈ (request (envGz gz) (New.Log []) [] 0 u true (some (.bytes b))
        false).2.netRequests,
      headerLookup r.header "Content-Encoding" = none ∧ r.body = some b) := by
  have hlen : 0 < b.length := List.length_pos.mpr hb
  refine ⟨?_, ?_, ?_⟩
  · simp [request, envGz, envA, New, RequestBuilder.Compressed, RequestBuilder.Log,
      serializeBody, compressStep, logStep, clientDo, readBody, effectiveClient,
      resolveClient, httpDefaultClient, noEffects]
    rfl
  · simp [request, envGz, envA, New, RequestBuilder.Compressed, RequestBuilder.Log,
      serializeBody, compressStep, logStep, clientDo, readBody, effectiveClient,
      resolveClient, httpDefaultClient, noEffects, cmdLogOf, headerArgs, dataArgs,
      addAll, emptyHeader, hlen]
    rfl
  · simp [request, envGz, envA, New, RequestBuilder.Log, serializeBody, compressStep,
      logStep, clientDo, readBody, effectiveClient, resolveClient, httpDefaultClient,
      noEffects]
    rfl

/-- C4 witness: compressing the concrete body `{"a":1}` with a compressor
returning `[9]` dispatches wire body `[9]` with `Content-Encoding: gzip`,
while the log line carries the original `{"a":1}` text. -/
theorem C4_compression_witness :
    ((request (envGz (fun _ => [9])) (New.Compressed.Log []) [] 0 "http://e" true
        (some (.bytes [123, 34, 97, 34, 58, 49, 125])) false).2.netRequests =
      [{ ctx := 0, method := "POST", url := "http://e", body := some [9],
         header := [("Content-Type", ["application/json"]),
                    ("Content-Encoding", ["gzip"])] }]) ∧
    ((request (envGz (fun _ => [9])) (New.Compressed.Log []) [] 0 "http://e" true
        (some (.bytes [123, 34, 97, 34, 58, 49, 125])) false).2.stderrLines =
      ["HTTP DEBUG: " ++ String.intercalate " " ["curl", "-v", "-X", "POST", "-H",
        "\"Content-Type: application/json\"", "--data-binary",
        quoteSh (envGz (fun _ => [9])) (strOfBytes [123, 34, 97, 34, 58, 49, 125]),
        quoteSh (envGz (fun _ => [9])) "http://e"] ++ "\n"]) :=
  ⟨(C4_compression (fun _ => [9]) [123, 34, 97, 34, 58, 49, 125] "http://e"
      (by decide)).1,
   (C4_compression (fun _ => [9]) [123, 34, 97, 34, 58, 49, 125] "http://e"
      (by decide)).2.1⟩

/-- `envA` with the server answering every request with a redirect that, if
followed, leads to `finalResp`. -/
def envRedirect (finalResp : HttpResponse) : Env :=
  { envA with serve := fun _ => .redirect finalResp }

/-- C5: with `DisableRedirect`, a redirect response makes the call fail
with the `ErrRedirect`-wrapping error (recognizable via `errors.Is`),
whether the default client or any caller-supplied client is in use; the
client actually used for dispatch is a shallow copy of the resolved client
— same transport and remaining fields, only the redirect hook replaced by
the always-`ErrRedirect` hook; and without `DisableRedirect` the redirect
is followed instead. -/
theorem C5_redirect_suppression (finalResp : HttpResponse) (u : String) (cl : HClient)
    (bod : List Nat) (c : RequestBuilder) (heap : Heap)
    (hd : c.disableRedirect = true) :
    ((request (envRedirect finalResp) New.DisableRedirect [] 0 u false none true).1 =
      .error (.urlWrapped .errRedirect)) ∧
    ((request (envRedirect finalResp) ((New.WithClient 0).DisableRedirect) [cl] 0 u
        false none true).1 = .error (.urlWrapped .errRedirect)) ∧
    (errorsIs (.urlWrapped .errRedirect) .errRedirect = true) ∧
    ((effectiveClient c heap).checkRedirect = .always .errRedirect ∧
     (effectiveClient c heap).transport = (resolveClient c heap).transport ∧
     (effectiveClient c heap).rest = (resolveClient c heap).rest) ∧
    ((request (envRedirect ⟨200, "200 OK", bod, none⟩) New [] 0 u false none true).1 =
      .ok bod) := by
  refine ⟨?_, ?_, rfl, ?_, ?_⟩
  · simp [request, envRedirect, envA, New, RequestBuilder.DisableRedirect,
      serializeBody, compressStep, logStep, clientDo, readBody, effectiveClient,
      resolveClient, httpDefaultClient, noEffects]
  · simp [request, envRedirect, envA, New, RequestBuilder.DisableRedirect,
      RequestBuilder.WithClient, serializeBody, compressStep, logStep, clientDo,
      readBody, effectiveClient, resolveClient, httpDefaultClient, noEffects]
  · simp [effectiveClient, hd]
  · simp [request, envRedirect, envA, New, serializeBody, compressStep, logStep,
      clientDo, readBody, effectiveClient, resolveClient, httpDefaultClient, noEffects]

/-- C5 witness: a poisoned-free builder with `DisableRedirect` fails a
redirecting exchange with the `url.Error`-wrapped `ErrRedirect`. -/
theorem C5_redirect_suppression_witness :
    (request (envRedirect ⟨200, "200 OK", [104], none⟩) New.DisableRedirect [] 0 "u"
      false none true).1 = .error (.urlWrapped .errRedirect) :=
  (C5_redirect_suppression ⟨200, "200 OK", [104], none⟩ "u" httpDefaultClient []
    New.DisableRedirect [] rfl).1

/-- `envA` with a file writer that always fails with `e`. -/
def envWriteFail (e : GoError) : Env :=
  { envA with writeFile := fun _ _ => some e }

/-- `mkServeEnv 200` with a file writer that always fails with `e`. -/
def envServeWriteFail (e : GoError) (bod : List Nat) : Env :=
  { mkServeEnv 200 "200 OK" bod with writeFile := fun _ _ => some e }

/-- C6: when a log file is configured and the write of the rendered command
string fails, the execution returns the wrapped write error (`"log err"`)
and performs no side effects at all — in particular no network call; with
console logging only, the very same failing file writer is irrelevant: the
call succeeds and the command string is emitted to stderr (console logging
never fails the operation). -/
theorem C6_log_write_failure (e : GoError) (u : String) (bod : List Nat) :
    (request (envWriteFail e) (New.LogFile "cmd.log") [] 0 u false none true =
      (.error (.logWriteErr e), noEffects)) ∧
    ((request (envServeWriteFail e bod) (New.Log []) [] 0 u false none true).1 =
      .ok bod) ∧
    ((request (envServeWriteFail e bod) (New.Log []) [] 0 u false none
        true).2.stderrLines =
      ["HTTP DEBUG: " ++ String.intercalate " "
        ["curl", "-v", "-X", "GET", quoteSh (envServeWriteFail e bod) u] ++ "\n"]) := by
  refine ⟨?_, ?_, ?_⟩
  · simp [request, envWriteFail, envA, New, RequestBuilder.LogFile, serializeBody,
      compressStep, logStep, noEffects]
  · simp [request, envServeWriteFail, mkServeEnv, envA, New, RequestBuilder.Log,
      serializeBody, compressStep, logStep, clientDo, readBody, effectiveClient,
      resolveClient, httpDefaultClient, noEffects]
  · simp [request, envServeWriteFail, mkServeEnv, envA, New, RequestBuilder.Log,
      serializeBody, compressStep, logStep, clientDo, readBody, effectiveClient,
      resolveClient, httpDefaultClient, noEffects, cmdLogOf, headerArgs, dataArgs,
      addAll, emptyHeader]

/-- C7: on a non-empty proxy URL that parses, `WithProxy` leaves every
pre-existing client object in the heap untouched (callers' clients are
never mutated in place), points the builder at a freshly allocated client,
and that new client is either a new zero client carrying the proxy
transport (no client configured) or a shallow copy of the configured
client with only its transport replaced; an empty proxy URL leaves the
builder and heap entirely unchanged. -/
theorem C7_withProxy_clone (env : Env) (c : RequestBuilder) (heap : Heap)
    (p pu : String) (hp : p ≠ "") (hb : c.buildErr = none)
    (hparse : env.urlParse p = .ok pu) :
    (∀ i, i < heap.length → (c.WithProxy env heap p).2[i]? = heap[i]?) ∧
    ((c.WithProxy env heap p).1 = { c with client := some heap.length }) ∧
    ((c.WithProxy env heap p).2[heap.length]? =
      some (match c.client with
        | none => { transport := .proxy pu, checkRedirect := .default, rest := 0 }
        | some a => { heap.getD a httpDefaultClient with transport := .proxy pu })) ∧
    (∀ c2 heap2, RequestBuilder.WithProxy c2 env heap2 "" = (c2, heap2)) := by
  have hw : c.WithProxy env heap p =
      ({ c with client := some heap.length },
        heap ++ [match c.client with
          | none => { transport := .proxy pu, checkRedirect := .default, rest := 0 }
          | some a => { heap.getD a httpDefaultClient with transport := .proxy pu }]) := by
    rcases hcl : c.client with _ | a <;>
      simp [RequestBuilder.WithProxy, hp, hb, hparse, hcl]
  refine ⟨?_, ?_, ?_, ?_⟩
  · intro i hi
    rw [hw]
    exact List.getElem?_append_left hi
  · rw [hw]
  · rw [hw]
    simp
  · intro c2 heap2
    simp [RequestBuilder.WithProxy]

/-- C7 witness: attaching a proxy to a builder holding client 0 of a
one-client heap leaves that client intact and allocates its clone with the
proxy transport at index 1. -/
theorem C7_withProxy_clone_witness :
    (((New.WithClient 0).WithProxy envA [⟨.default, .always .errRedirect, 7⟩]
        "p").2[0]? = some ⟨.default, .always .errRedirect, 7⟩) ∧
    (((New.WithClient 0).WithProxy envA [⟨.default, .always .errRedirect, 7⟩]
        "p").2[1]? = some ⟨.proxy "p", .always .errRedirect, 7⟩) := by
  have h := C7_withProxy_clone envA (New.WithClient 0)
    [⟨.default, .always .errRedirect, 7⟩] "p" "p" (by decide) rfl rfl
  exact ⟨by rw [h.1 0 (by decide)]; rfl, h.2.2.1⟩

/-- C10: for every builder state, environment, URL, payload, and result
target that is not a `*PlainHtml` pointer, the `Get`/`PostJSON` pair of
`src/request.go` returns exactly the same result (and effects) as the
`PlainHtml`-aware pair; the two pairs differ precisely at a `*PlainHtml`
target with a non-empty body, where the `PlainHtml`-aware version assigns
the raw body verbatim while the `request.go` version runs the JSON
decoder on it. -/
theorem C10_requestGo_refinement (env : Env) (c : RequestBuilder) (heap : Heap)
    (ctx : Nat) (u : String) (data : Option Payload) (res : ResTarget)
    (h : res ≠ .plainHtml) :
    (RequestGo.PostJSON c env heap ctx u data res =
      c.PostJSON env heap ctx u data res) ∧
    (RequestGo.Get c env heap ctx u res = c.Get env heap ctx u res) ∧
    ((New.Get (mkServeEnv 200 "200 OK" [104, 105]) [] 0 "u" .plainHtml).1 =
      .okPlain (strOfBytes [104, 105])) ∧
    ((RequestGo.Get New (mkServeEnv 200 "200 OK" [104, 105]) [] 0 "u" .plainHtml).1 =
      .err (.decodeErr "decode should not be reached")) := by
  refine ⟨?_, ?_, by decide, by decide⟩
  · cases res with
    | nilTarget => simp [RequestGo.PostJSON, RequestBuilder.PostJSON]
    | plainHtml => exact absurd rfl h
    | other i => simp [RequestGo.PostJSON, RequestBuilder.PostJSON]
  · cases res with
    | nilTarget => simp [RequestGo.Get, RequestBuilder.Get]
    | plainHtml => exact absurd rfl h
    | other i => simp [RequestGo.Get, RequestBuilder.Get]

/-- C10 witness: with a nil result target the two `Get` definitions agree
on a concrete execution. -/
theorem C10_requestGo_refinement_witness :
    RequestGo.Get New envA [] 0 "u" .nilTarget = New.Get envA [] 0 "u" .nilTarget :=
  (C10_requestGo_refinement envA New [] 0 "u" none .nilTarget (by decide)).2.1
